import Mathlib

/-!
Shallow embedding of the layout-and-interaction core of the emgui
immediate-mode GUI library (src/emgui/src/layout.rs), together with
theorems settling the frozen claims about it.

Scalars are modelled as rationals (exact arithmetic standing in for f32);
64-bit hash arithmetic is modelled as natural numbers reduced mod 2^64.
-/

/-- Modelled from the spec: 2D vector primitive from the external math
module (vector/rect arithmetic is an external collaborator); componentwise
arithmetic over exact rationals standing in for f32. -/
structure Vec2 where
  x : ℚ
  y : ℚ
deriving DecidableEq, Repr

def vec2 (x y : ℚ) : Vec2 := ⟨x, y⟩

instance : Add Vec2 := ⟨fun a b => ⟨a.x + b.x, a.y + b.y⟩⟩

instance : Sub Vec2 := ⟨fun a b => ⟨a.x - b.x, a.y - b.y⟩⟩

def Vec2.smul (q : ℚ) (v : Vec2) : Vec2 := ⟨q * v.x, q * v.y⟩

/-- Modelled from the spec: axis-aligned rectangle primitive from the
external math module, stored as position (min corner) and size. -/
structure Rect where
  pos : Vec2
  size : Vec2
deriving DecidableEq, Repr

def Rect.min (r : Rect) : Vec2 := r.pos

def Rect.max (r : Rect) : Vec2 := r.pos + r.size

def Rect.from_min_size (pos size : Vec2) : Rect := ⟨pos, size⟩

/-- Modelled from the spec: point-in-rectangle test used for hit testing
(hovered = rect contains the mouse position). -/
def Rect.contains (r : Rect) (p : Vec2) : Bool :=
  decide (r.pos.x ≤ p.x) && decide (p.x ≤ r.pos.x + r.size.x) &&
  decide (r.pos.y ≤ p.y) && decide (p.y ≤ r.pos.y + r.size.y)

/-- Modelled from the spec: linear remap of `x` from the source interval
to the target interval, clamped to the target range; stands in for
`remap_clamp` of the external math module. -/
def remap_clamp (x fromMin fromMax toMin toMax : ℚ) : ℚ :=
  if x ≤ fromMin then toMin
  else if fromMax ≤ x then toMax
  else toMin + (x - fromMin) * (toMax - toMin) / (fromMax - fromMin)

-- ----------------------------------------------------------------------------

structure LayoutOptions where
  window_padding : Vec2
  item_spacing : Vec2
  indent : ℚ
  button_padding : Vec2
  start_icon_width : ℚ
deriving DecidableEq, Repr

def LayoutOptions.default : LayoutOptions :=
  { item_spacing := vec2 8 4
    window_padding := vec2 6 6
    indent := 21
    button_padding := vec2 5 3
    start_icon_width := 20 }

-- ----------------------------------------------------------------------------

/-- Modelled from the spec: the read-only per-frame input snapshot
(raw input capture is an external collaborator): mouse position,
mouse-down flag, mouse-just-clicked flag. -/
structure GuiInput where
  mouse_pos : Vec2
  mouse_down : Bool
  mouse_clicked : Bool
deriving DecidableEq, Repr

/-- Modelled from the spec: the transient triple computed once per
reservation. -/
structure InteractInfo where
  hovered : Bool
  clicked : Bool
  active : Bool
deriving DecidableEq, Repr

inductive Direction where
  | Horizontal
  | Vertical
deriving DecidableEq, Repr

abbrev WidgetId := ℕ

structure TextFragment where
  x_offsets : List ℚ
  y_offset : ℚ
  text : String
deriving DecidableEq, Repr

inductive TextStyle where
  | Label
  | Heading
deriving DecidableEq, Repr

/-- Modelled from the spec: the closed draw-command vocabulary, each
command carrying geometry plus semantic state. -/
inductive GuiCmd where
  | Window (rect : Rect)
  | Button (interact : InteractInfo) (rect : Rect)
  | Checkbox (checked : Bool) (interact : InteractInfo) (rect : Rect)
  | RadioButton (checked : Bool) (interact : InteractInfo) (rect : Rect)
  | FoldableHeader (interact : InteractInfo) (rect : Rect) (opn : Bool)
  | Slider (interact : InteractInfo) (vmin vmax : ℚ) (rect : Rect) (value : ℚ)
  | Text (pos : Vec2) (style : TextStyle) (text : String) (x_offsets : List ℚ)
deriving DecidableEq, Repr

structure GraphicLayers where
  graphics : List GuiCmd
  hovering_graphics : List GuiCmd
deriving DecidableEq, Repr

def GraphicLayers.drain (g : GraphicLayers) : List GuiCmd × GraphicLayers :=
  (g.graphics ++ g.hovering_graphics, ⟨[], []⟩)

structure Memory where
  active_id : Option WidgetId
  open_foldables : Finset WidgetId
deriving DecidableEq

/-- Modelled from the spec: the font collaborator contract — line spacing
plus per-character x-offsets of a single line, ending with the total line
width. -/
structure Font where
  line_spacing : ℚ
  layout_single_line : String → List ℚ

structure Data where
  options : LayoutOptions
  font : Font
  input : GuiInput
  memory : Memory
  graphics : GraphicLayers

def Data.new_frame (d : Data) (gui_input : GuiInput) : Data :=
  { d with
    input := gui_input
    memory :=
      if gui_input.mouse_down then d.memory
      else { d.memory with active_id := none } }

structure Region where
  id : WidgetId
  dir : Direction
  cursor : Vec2
  bounding_size : Vec2
  available_space : Vec2

def add_graphic (d : Data) (gui_cmd : GuiCmd) : Data :=
  { d with graphics := { d.graphics with graphics := d.graphics.graphics ++ [gui_cmd] } }

/-- Reserve this much space and move the cursor.  Faithful to the source:
in the Vertical branch the code subtracts `size.x` (not `size.y`) from
`available_space.y`. -/
def Region.reserve_space_inner (r : Region) (size : Vec2) : Region :=
  match r.dir with
  | Direction.Horizontal =>
      { r with
        cursor := ⟨r.cursor.x + size.x, r.cursor.y⟩
        available_space := ⟨r.available_space.x - size.x, r.available_space.y⟩
        bounding_size := ⟨r.bounding_size.x + size.x, max r.bounding_size.y size.y⟩ }
  | Direction.Vertical =>
      { r with
        cursor := ⟨r.cursor.x, r.cursor.y + size.y⟩
        available_space := ⟨r.available_space.x, r.available_space.y - size.x⟩
        bounding_size := ⟨max r.bounding_size.x size.x, r.bounding_size.y + size.y⟩ }

def Region.reserve_space (r : Region) (d : Data) (size : Vec2)
    (interaction_id : Option WidgetId) : Region × Data × Rect × InteractInfo :=
  let rect : Rect := ⟨r.cursor, size⟩
  let r' := r.reserve_space_inner (size + d.options.item_spacing)
  let hovered := rect.contains d.input.mouse_pos
  let clicked := hovered && d.input.mouse_clicked
  match interaction_id with
  | some i =>
      let mem := if clicked then { d.memory with active_id := some i } else d.memory
      let active := decide (mem.active_id = some i)
      (r', { d with memory := mem }, rect, ⟨hovered, clicked, active⟩)
  | none => (r', d, rect, ⟨hovered, clicked, false⟩)

-- ----------------------------------------------------------------------------
-- Identity assignment: the standard-library DefaultHasher (SipHash-1-3 with
-- zero keys) modelled over natural numbers reduced mod 2^64.

def rotl64 (x r : ℕ) : ℕ :=
  ((x <<< r) ||| (x >>> (64 - r))) % 2 ^ 64

structure SipState where
  v0 : ℕ
  v1 : ℕ
  v2 : ℕ
  v3 : ℕ
deriving DecidableEq, Repr

def sipRound (s : SipState) : SipState :=
  let v0 := (s.v0 + s.v1) % 2 ^ 64
  let v1 := rotl64 s.v1 13
  let v1 := v1 ^^^ v0
  let v0 := rotl64 v0 32
  let v2 := (s.v2 + s.v3) % 2 ^ 64
  let v3 := rotl64 s.v3 16
  let v3 := v3 ^^^ v2
  let v0 := (v0 + v3) % 2 ^ 64
  let v3 := rotl64 v3 21
  let v3 := v3 ^^^ v0
  let v2 := (v2 + v1) % 2 ^ 64
  let v1 := rotl64 v1 17
  let v1 := v1 ^^^ v2
  let v2 := rotl64 v2 32
  ⟨v0, v1, v2, v3⟩

/-- Little-endian word value of a byte list (first byte least significant). -/
def bytesToWord (bs : List ℕ) : ℕ :=
  bs.foldr (fun b acc => b % 256 + 256 * acc) 0

def sipCompress (s : SipState) (m : ℕ) : SipState :=
  let s := { s with v3 := s.v3 ^^^ m }
  let s := sipRound s
  { s with v0 := s.v0 ^^^ m }

/-- Process all complete 8-byte blocks, returning state and leftover tail. -/
def sipBlocks : SipState → List ℕ → SipState × List ℕ
  | s, b0 :: b1 :: b2 :: b3 :: b4 :: b5 :: b6 :: b7 :: rest =>
      sipBlocks (sipCompress s (bytesToWord [b0, b1, b2, b3, b4, b5, b6, b7])) rest
  | s, bs => (s, bs)

/-- SipHash-1-3 with both keys zero, as used by DefaultHasher::new(). -/
def siphash13 (bytes : List ℕ) : ℕ :=
  let s0 : SipState :=
    ⟨0x736f6d6570736575, 0x646f72616e646f6d, 0x6c7967656e657261, 0x7465646279746573⟩
  let blocks := sipBlocks s0 bytes
  let s := blocks.1
  let tail := blocks.2
  let b := ((bytes.length % 256) <<< 56) ||| bytesToWord tail
  let s := sipCompress s b
  let s := { s with v2 := s.v2 ^^^ 0xff }
  let s := sipRound (sipRound (sipRound s))
  s.v0 ^^^ s.v1 ^^^ s.v2 ^^^ s.v3

/-- The 8 little-endian bytes of a 64-bit value, as written by write_u64. -/
def le64 (n : ℕ) : List ℕ :=
  (List.range 8).map (fun i => (n >>> (8 * i)) % 256)

/-- UTF-8 bytes of one character. -/
def utf8Bytes (c : Char) : List ℕ :=
  let n := c.toNat
  if n < 0x80 then [n]
  else if n < 0x800 then
    [0xC0 ||| (n >>> 6), 0x80 ||| (n &&& 0x3F)]
  else if n < 0x10000 then
    [0xE0 ||| (n >>> 12), 0x80 ||| ((n >>> 6) &&& 0x3F), 0x80 ||| (n &&& 0x3F)]
  else
    [0xF0 ||| (n >>> 18), 0x80 ||| ((n >>> 12) &&& 0x3F),
     0x80 ||| ((n >>> 6) &&& 0x3F), 0x80 ||| (n &&& 0x3F)]

def strBytes (s : String) : List ℕ :=
  s.data.foldr (fun c acc => utf8Bytes c ++ acc) []

/-- Chained child id: hasher.write_u64(self.id), then the string key's hash
(its UTF-8 bytes followed by the 0xff terminator byte), then finish. -/
def Region.make_child_id (r : Region) (child_id : String) : WidgetId :=
  siphash13 (le64 r.id ++ strBytes child_id ++ [0xff])

-- ----------------------------------------------------------------------------
-- Text layout and widgets.

/-- Split a character list at newline characters (text.split of the source). -/
def splitLines (cs : List Char) : List (List Char) :=
  cs.foldr
    (fun c acc =>
      if c = '\n' then [] :: acc
      else
        match acc with
        | [] => [[c]]
        | l :: ls => (c :: l) :: ls)
    [[]]

def listLastD (xs : List ℚ) (dflt : ℚ) : ℚ :=
  xs.getLast?.getD dflt

def Region.layout_text (d : Data) (text : String) : List TextFragment × Vec2 :=
  let line_spacing := d.font.line_spacing
  let step := fun (acc : List TextFragment × ℚ × ℚ) (line : List Char) =>
    let x_offsets := d.font.layout_single_line (String.mk line)
    let line_width := listLastD x_offsets 0
    (acc.1 ++ [⟨x_offsets, acc.2.1, String.mk line⟩],
     acc.2.1 + line_spacing, max line_width acc.2.2)
  let res := (splitLines text.data).foldl step ([], 0, 0)
  (res.1, vec2 res.2.2 res.2.1)

def Region.add_text (d : Data) (pos : Vec2) (text : List TextFragment) : Data :=
  text.foldl
    (fun dd fragment =>
      add_graphic dd
        (GuiCmd.Text (pos + vec2 0 fragment.y_offset) TextStyle.Label
          fragment.text fragment.x_offsets))
    d

def Region.label (r : Region) (d : Data) (text : String) :
    Region × Data × InteractInfo :=
  let lt := Region.layout_text d text
  let d := Region.add_text d r.cursor lt.1
  let res := r.reserve_space d lt.2 none
  (res.1, res.2.1, res.2.2.2)

def Region.checkbox (r : Region) (d : Data) (text : String) (checked : Bool) :
    Region × Data × Bool × InteractInfo :=
  let id := r.make_child_id text
  let lt := Region.layout_text d text
  let text_size := lt.2
  let text_cursor := r.cursor + d.options.button_padding + vec2 d.options.start_icon_width 0
  let res := r.reserve_space d
    (d.options.button_padding + vec2 d.options.start_icon_width 0 + text_size
      + d.options.button_padding)
    (some id)
  let checked := if res.2.2.2.clicked then !checked else checked
  let d := add_graphic res.2.1 (GuiCmd.Checkbox checked res.2.2.2 res.2.2.1)
  let d := Region.add_text d text_cursor lt.1
  (res.1, d, checked, res.2.2.2)

def Region.naked_slider_f32 (r : Region) (d : Data) (key : String)
    (value vmin vmax : ℚ) : Region × Data × ℚ × InteractInfo :=
  let id := r.make_child_id key
  let res := r.reserve_space d (vec2 r.available_space.x d.font.line_spacing) (some id)
  let slider_rect := res.2.2.1
  let interact := res.2.2.2
  let value :=
    if interact.active then
      remap_clamp d.input.mouse_pos.x slider_rect.min.x slider_rect.max.x vmin vmax
    else value
  let d := add_graphic res.2.1 (GuiCmd.Slider interact vmin vmax slider_rect value)
  (res.1, d, value, interact)

/-- Create a child region which is indented to the right. -/
def Region.indent (r : Region) (d : Data)
    (add_contents : Region → Data → Region × Data) : Region × Data :=
  let ind : Vec2 := vec2 d.options.indent 0
  let child_region : Region :=
    { id := r.id
      dir := r.dir
      cursor := r.cursor + ind
      bounding_size := vec2 0 0
      available_space := r.available_space - ind }
  let res := add_contents child_region d
  let size := res.1.bounding_size
  (r.reserve_space_inner (ind + size), res.2)

/-- A horizontally centered region of the given width.  The source takes the
parent by mutable reference but never writes to it; the unchanged parent is
returned in the first component alongside the new child region. -/
def Region.centered_column (r : Region) (width : ℚ) : Region × Region :=
  (r,
   { id := r.id
     dir := r.dir
     cursor := vec2 ((r.available_space.x - width) / 2) r.cursor.y
     bounding_size := vec2 0 0
     available_space := vec2 width r.available_space.y })

/-- Start a region with horizontal layout. -/
def Region.horizontal (r : Region) (d : Data)
    (add_contents : Region → Data → Region × Data) : Region × Data :=
  let child_region : Region :=
    { id := r.id
      dir := Direction.Horizontal
      cursor := r.cursor
      bounding_size := vec2 0 0
      available_space := r.available_space }
  let res := add_contents child_region d
  (r.reserve_space_inner res.1.bounding_size, res.2)

def Region.foldable (r : Region) (d : Data) (text : String)
    (add_contents : Region → Data → Region × Data) :
    Option (Region × Data × InteractInfo) :=
  if r.dir = Direction.Vertical then
    let id := r.make_child_id text
    let lt := Region.layout_text d text
    let text_size := lt.2
    let text_cursor := r.cursor + d.options.button_padding
    let res := r.reserve_space d
      (vec2 r.available_space.x (text_size.y + 2 * d.options.button_padding.y))
      (some id)
    let r := res.1
    let d := res.2.1
    let rect := res.2.2.1
    let interact := res.2.2.2
    let mem :=
      if interact.clicked then
        if id ∈ d.memory.open_foldables then
          { d.memory with open_foldables := d.memory.open_foldables.erase id }
        else
          { d.memory with open_foldables := insert id d.memory.open_foldables }
      else d.memory
    let opn := decide (id ∈ mem.open_foldables)
    let d := { d with memory := mem }
    let d := add_graphic d (GuiCmd.FoldableHeader interact rect opn)
    let d := Region.add_text d (text_cursor + vec2 d.options.start_icon_width 0) lt.1
    if opn then
      let rFold := { r with id := id }
      let res2 := rFold.indent d add_contents
      some ({ res2.1 with id := r.id }, res2.2, interact)
    else
      some (r, d, interact)
  else none

/-- Modelled from the spec: stand-in for the f32 infinity used as the popup
region's available height; a rational larger than every finite f32.  No
claim depends on its value. -/
def f32_infinity : ℚ := 2 ^ 128

/-- Show a pop-over window. -/
def show_popup (d : Data) (window_pos : Vec2)
    (add_contents : Region → Data → Region × Data) : Data :=
  let num_graphics_before := d.graphics.graphics.length
  let window_padding := d.options.window_padding
  let popup_region : Region :=
    { id := 0
      dir := Direction.Vertical
      cursor := window_pos + window_padding
      bounding_size := vec2 0 0
      available_space := vec2 400 f32_infinity }
  let res := add_contents popup_region d
  let d := res.2
  let inner_size := res.1.bounding_size - d.options.item_spacing
  let outer_size := inner_size + Vec2.smul 2 window_padding
  let rect := Rect.from_min_size window_pos outer_size
  let popup_graphics := d.graphics.graphics.drop num_graphics_before
  let base_graphics := d.graphics.graphics.take num_graphics_before
  { d with
    graphics :=
      { graphics := base_graphics
        hovering_graphics :=
          d.graphics.hovering_graphics ++ GuiCmd.Window rect :: popup_graphics } }

-- ----------------------------------------------------------------------------
-- Frame drivers used by the claims.

/-- A sequence of bare reservations (no interaction id), as performed by a
run of labels with the given measured content sizes. -/
def reserve_all (d : Data) (r : Region) : List Vec2 → Region
  | [] => r
  | s :: rest => reserve_all d (r.reserve_space d s none).1 rest

/-- One host frame per input snapshot: new_frame, then one checkbox rebuilt
from the same root region, threading the bound boolean across frames. -/
def checkbox_frames (r0 : Region) (text : String) :
    Data → Bool → List GuiInput → Bool × Data
  | d, b, [] => (b, d)
  | d, b, inp :: rest =>
      let d1 := d.new_frame inp
      let res := r0.checkbox d1 text b
      checkbox_frames r0 text res.2.1 res.2.2.1 rest

-- ----------------------------------------------------------------------------
-- Componentwise lemmas and concrete fixtures.

@[simp]
lemma Vec2.add_x (a b : Vec2) : (a + b).x = a.x + b.x := rfl

@[simp]
lemma Vec2.add_y (a b : Vec2) : (a + b).y = a.y + b.y := rfl

@[simp]
lemma Vec2.sub_x (a b : Vec2) : (a - b).x = a.x - b.x := rfl

@[simp]
lemma Vec2.sub_y (a b : Vec2) : (a - b).y = a.y - b.y := rfl

@[simp]
lemma vec2_x (a b : ℚ) : (vec2 a b).x = a := rfl

@[simp]
lemma vec2_y (a b : ℚ) : (vec2 a b).y = b := rfl

def font0 : Font := ⟨14, fun _ => [0, 10]⟩

def input0 : GuiInput := ⟨vec2 (-100) (-100), false, false⟩

def mem0 : Memory := ⟨none, ∅⟩

def d0 : Data := ⟨LayoutOptions.default, font0, input0, mem0, ⟨[], []⟩⟩

def region0 : Region := ⟨0, Direction.Vertical, vec2 0 0, vec2 0 0, vec2 100 100⟩

def regionH : Region := ⟨0, Direction.Horizontal, vec2 0 0, vec2 0 0, vec2 100 100⟩

-- ----------------------------------------------------------------------------
-- Per-step accounting lemmas for bare reservations.

lemma reserve_space_none_vertical (r : Region) (d : Data) (s : Vec2)
    (h : r.dir = Direction.Vertical) :
    (r.reserve_space d s none).1.dir = Direction.Vertical
    ∧ (r.reserve_space d s none).1.cursor.y
        = r.cursor.y + (s.y + d.options.item_spacing.y)
    ∧ (r.reserve_space d s none).1.bounding_size.x
        = max r.bounding_size.x (s.x + d.options.item_spacing.x) := by
  simp [Region.reserve_space, Region.reserve_space_inner, h]

lemma reserve_space_none_horizontal (r : Region) (d : Data) (s : Vec2)
    (h : r.dir = Direction.Horizontal) :
    (r.reserve_space d s none).1.dir = Direction.Horizontal
    ∧ (r.reserve_space d s none).1.cursor.x
        = r.cursor.x + (s.x + d.options.item_spacing.x)
    ∧ (r.reserve_space d s none).1.bounding_size.y
        = max r.bounding_size.y (s.y + d.options.item_spacing.y) := by
  simp [Region.reserve_space, Region.reserve_space_inner, h]

lemma reserve_all_vertical (d : Data) (sizes : List Vec2) :
    ∀ r : Region, r.dir = Direction.Vertical →
      (reserve_all d r sizes).cursor.y
          = r.cursor.y + (sizes.map (fun s => s.y + d.options.item_spacing.y)).sum
      ∧ (reserve_all d r sizes).bounding_size.x
          = sizes.foldl (fun m s => max m (s.x + d.options.item_spacing.x))
              r.bounding_size.x := by
  induction sizes with
  | nil => intro r _; simp [reserve_all]
  | cons s rest ih =>
      intro r h
      obtain ⟨hdir, hcur, hbnd⟩ := reserve_space_none_vertical r d s h
      obtain ⟨ihcur, ihbnd⟩ := ih (r.reserve_space d s none).1 hdir
      constructor
      · rw [reserve_all, ihcur, hcur]
        simp [List.sum_cons]
        ring
      · rw [reserve_all, ihbnd, hbnd]
        simp [List.foldl_cons]

lemma reserve_all_horizontal (d : Data) (sizes : List Vec2) :
    ∀ r : Region, r.dir = Direction.Horizontal →
      (reserve_all d r sizes).cursor.x
          = r.cursor.x + (sizes.map (fun s => s.x + d.options.item_spacing.x)).sum
      ∧ (reserve_all d r sizes).bounding_size.y
          = sizes.foldl (fun m s => max m (s.y + d.options.item_spacing.y))
              r.bounding_size.y := by
  induction sizes with
  | nil => intro r _; simp [reserve_all]
  | cons s rest ih =>
      intro r h
      obtain ⟨hdir, hcur, hbnd⟩ := reserve_space_none_horizontal r d s h
      obtain ⟨ihcur, ihbnd⟩ := ih (r.reserve_space d s none).1 hdir
      constructor
      · rw [reserve_all, ihcur, hcur]
        simp [List.sum_cons]
        ring
      · rw [reserve_all, ihbnd, hbnd]
        simp [List.foldl_cons]

-- ----------------------------------------------------------------------------

/-- Claim C1 (amended): in a Vertical region, after N reservations the
cursor's y-coordinate has advanced by the sum of (height_i + item_spacing.y),
and bounding_size.x equals the running maximum, over the initial
bounding_size.x, of (width_i + item_spacing.x) — the reservation adds
item_spacing to the content size before accounting, so the spacing is
included in the bounding size (the claim's spacing-free maximum, and its
scenario value (30,32), do not hold; the scenario yields (38,36)).  The
symmetric law holds for Horizontal regions with axes swapped. -/
theorem layout_accounting_amended (d : Data) (rv rh : Region) (sizes : List Vec2)
    (hv : rv.dir = Direction.Vertical) (hh : rh.dir = Direction.Horizontal) :
    ((reserve_all d rv sizes).cursor.y
        = rv.cursor.y + (sizes.map (fun s => s.y + d.options.item_spacing.y)).sum
      ∧ (reserve_all d rv sizes).bounding_size.x
          = sizes.foldl (fun m s => max m (s.x + d.options.item_spacing.x))
              rv.bounding_size.x)
    ∧ ((reserve_all d rh sizes).cursor.x
        = rh.cursor.x + (sizes.map (fun s => s.x + d.options.item_spacing.x)).sum
      ∧ (reserve_all d rh sizes).bounding_size.y
          = sizes.foldl (fun m s => max m (s.y + d.options.item_spacing.y))
              rh.bounding_size.y) :=
  ⟨reserve_all_vertical d sizes rv hv, reserve_all_horizontal d sizes rh hh⟩

/-- Claim C1, counterexample: in the spec's own scenario (Vertical region,
item_spacing (8,4), reservations (20,14) then (30,14)) the cursor.y advance
is 36 as claimed, but the final bounding_size is (38,36), not (30,32), so
the claim as stated is false. -/
theorem layout_accounting_cex :
    ¬ ((reserve_all d0 region0 [vec2 20 14, vec2 30 14]).cursor.y
          - region0.cursor.y = 36
        ∧ (reserve_all d0 region0 [vec2 20 14, vec2 30 14]).bounding_size
          = vec2 30 32) := by
  norm_num [reserve_all, Region.reserve_space, Region.reserve_space_inner,
    region0, d0, LayoutOptions.default, vec2, Vec2.mk.injEq]

/-- Claim C1, witness: the amended accounting law evaluated on the spec's
scenario sizes, for a concrete Vertical and a concrete Horizontal region. -/
theorem layout_accounting_witness :
    ((reserve_all d0 region0 [vec2 20 14, vec2 30 14]).cursor.y
        = region0.cursor.y
          + (([vec2 20 14, vec2 30 14]).map
              (fun s => s.y + d0.options.item_spacing.y)).sum
      ∧ (reserve_all d0 region0 [vec2 20 14, vec2 30 14]).bounding_size.x
          = ([vec2 20 14, vec2 30 14]).foldl
              (fun m s => max m (s.x + d0.options.item_spacing.x))
              region0.bounding_size.x)
    ∧ ((reserve_all d0 regionH [vec2 20 14, vec2 30 14]).cursor.x
        = regionH.cursor.x
          + (([vec2 20 14, vec2 30 14]).map
              (fun s => s.x + d0.options.item_spacing.x)).sum
      ∧ (reserve_all d0 regionH [vec2 20 14, vec2 30 14]).bounding_size.y
          = ([vec2 20 14, vec2 30 14]).foldl
              (fun m s => max m (s.y + d0.options.item_spacing.y))
              regionH.bounding_size.y) :=
  layout_accounting_amended d0 region0 regionH [vec2 20 14, vec2 30 14] rfl rfl

/-- Claim C2 (code bug): in a Vertical region the code shrinks
available_space.y by the reserved size's x-component (content_size.x +
item_spacing.x), not its y-component: reserving (20,14) with spacing (8,4)
from available_space (100,100) leaves available_space = (100,72), whereas
the claim requires y to shrink by 14+4 to 82.  available_space.x is
unchanged as claimed. -/
theorem available_space_bug_eval :
    ((region0.reserve_space d0 (vec2 20 14) none).1.available_space.y = 72
      ∧ (region0.reserve_space d0 (vec2 20 14) none).1.available_space.x = 100)
    ∧ ¬ ((region0.reserve_space d0 (vec2 20 14) none).1.available_space.y
          = 100 - (14 + 4)) := by
  norm_num [reserve_all, Region.reserve_space, Region.reserve_space_inner,
    region0, d0, LayoutOptions.default, vec2]

-- ----------------------------------------------------------------------------

/-- Claim C3: Memory.active_id is a single optional value, so at most one
id is active at any instant; a reservation with an interaction id that
observes clicked overwrites Memory.active_id with that id, displacing any
previous holder; and new_frame with an input whose mouse_down flag is false
sets Memory.active_id to none regardless of mouse position or hover. -/
theorem active_exclusivity :
    (∀ (m : Memory) (i j : WidgetId),
        m.active_id = some i → m.active_id = some j → i = j)
    ∧ (∀ (r : Region) (d : Data) (size : Vec2) (i : WidgetId),
        (r.reserve_space d size (some i)).2.2.2.clicked = true →
        (r.reserve_space d size (some i)).2.1.memory.active_id = some i)
    ∧ (∀ (d : Data) (inp : GuiInput),
        inp.mouse_down = false → (d.new_frame inp).memory.active_id = none) := by
  refine ⟨fun m i j h1 h2 => ?_, fun r d size i h => ?_, fun d inp h => ?_⟩
  · rw [h1] at h2
    exact Option.some.inj h2
  · simp only [Region.reserve_space] at h ⊢
    simp [h]
  · simp [Data.new_frame, h]

def inputClick : GuiInput := ⟨vec2 1 1, true, true⟩

def dClick : Data := { d0 with input := inputClick }

/-- Claim C3, witness: a concrete clicked reservation installs its id, and
a concrete released-mouse new_frame clears the active id. -/
theorem active_exclusivity_witness :
    (5 : WidgetId) = 5
    ∧ (region0.reserve_space dClick (vec2 10 10) (some 5)).2.1.memory.active_id
        = some 5
    ∧ (d0.new_frame input0).memory.active_id = none :=
  ⟨active_exclusivity.1 ⟨some 5, ∅⟩ 5 5 rfl rfl,
   active_exclusivity.2.1 region0 dClick (vec2 10 10) 5
     (by norm_num [Region.reserve_space, Rect.contains, region0, dClick, d0,
       inputClick, vec2]),
   active_exclusivity.2.2 d0 input0 rfl⟩

-- ----------------------------------------------------------------------------

/-- Claim C5: make_child_id is a pure deterministic function of the parent
id and the key: any two regions with the same id — whatever their other
state, in the same frame or a different one — produce the identical 64-bit
child id for the same key. -/
theorem child_id_deterministic (r1 r2 : Region) (key : String)
    (h : r1.id = r2.id) :
    r1.make_child_id key = r2.make_child_id key := by
  simp [Region.make_child_id, h]

def regionAlt : Region := ⟨0, Direction.Horizontal, vec2 5 7, vec2 1 2, vec2 9 9⟩

/-- Claim C5, witness: two regions equal only in their id (differing in
direction, cursor, bounding and available space) produce the same child id
for the key "a". -/
theorem child_id_deterministic_witness :
    region0.make_child_id "a" = regionAlt.make_child_id "a" :=
  child_id_deterministic region0 regionAlt "a" rfl

-- ----------------------------------------------------------------------------

/-- Claim C9: centered_column reserves no space in its parent — the parent's
cursor, bounding_size and available_space are all unchanged — unlike indent
and horizontal, each of which can change the parent by reserving its child
content's extent. -/
theorem centered_column_no_reserve :
    (∀ (r : Region) (width : ℚ),
        (r.centered_column width).1.cursor = r.cursor
        ∧ (r.centered_column width).1.bounding_size = r.bounding_size
        ∧ (r.centered_column width).1.available_space = r.available_space)
    ∧ (∃ (r : Region) (d : Data) (f : Region → Data → Region × Data),
        (r.indent d f).1.cursor ≠ r.cursor)
    ∧ (∃ (r : Region) (d : Data) (f : Region → Data → Region × Data),
        (r.horizontal d f).1.cursor ≠ r.cursor) := by
  refine ⟨fun r width => ⟨rfl, rfl, rfl⟩,
    ⟨region0, d0, fun rc dc => (rc.reserve_space_inner (vec2 5 7), dc), ?_⟩,
    ⟨region0, d0, fun rc dc => (rc.reserve_space_inner (vec2 5 7), dc), ?_⟩⟩
  · norm_num [Region.indent, Region.reserve_space_inner, region0, d0,
      LayoutOptions.default, vec2, Vec2.mk.injEq]
  · norm_num [Region.horizontal, Region.reserve_space_inner, region0, d0,
      LayoutOptions.default, vec2, Vec2.mk.injEq]

-- ----------------------------------------------------------------------------

/-- Claim C4: when the popup content appends the command list new to the
base layer (and does not touch the overlay), show_popup removes from the
base layer exactly the commands appended after the length it recorded on
entry — the base layer is restored to its state at entry — and appends to
the overlay a window-background command followed by those commands in their
original relative order; consequently, for any base-layer commands appended
later in the frame, the drained output lists every base command (in call
order) strictly before every popup command. -/
theorem popup_layering (d : Data) (pos : Vec2) (new : List GuiCmd)
    (f : Region → Data → Region × Data)
    (hf : ∀ (rc : Region) (dc : Data),
        (f rc dc).2.graphics.graphics = dc.graphics.graphics ++ new
        ∧ (f rc dc).2.graphics.hovering_graphics = dc.graphics.hovering_graphics) :
    ∃ rect : Rect,
      (show_popup d pos f).graphics.graphics = d.graphics.graphics
      ∧ (show_popup d pos f).graphics.hovering_graphics
          = d.graphics.hovering_graphics ++ GuiCmd.Window rect :: new
      ∧ ∀ later : List GuiCmd,
          (GraphicLayers.drain
            ⟨(show_popup d pos f).graphics.graphics ++ later,
             (show_popup d pos f).graphics.hovering_graphics⟩).1
          = (d.graphics.graphics ++ later)
            ++ (d.graphics.hovering_graphics ++ GuiCmd.Window rect :: new) := by
  obtain ⟨hg, hh⟩ := hf
    { id := 0
      dir := Direction.Vertical
      cursor := pos + d.options.window_padding
      bounding_size := vec2 0 0
      available_space := vec2 400 f32_infinity } d
  have h1 : (show_popup d pos f).graphics.graphics = d.graphics.graphics := by
    simp only [show_popup, hg]
    simp [List.take_left]
  have h2 : (show_popup d pos f).graphics.hovering_graphics
      = d.graphics.hovering_graphics
        ++ GuiCmd.Window
            (Rect.from_min_size pos
              ((f { id := 0
                    dir := Direction.Vertical
                    cursor := pos + d.options.window_padding
                    bounding_size := vec2 0 0
                    available_space := vec2 400 f32_infinity } d).1.bounding_size
                - (f { id := 0
                       dir := Direction.Vertical
                       cursor := pos + d.options.window_padding
                       bounding_size := vec2 0 0
                       available_space := vec2 400 f32_infinity } d).2.options.item_spacing
                + Vec2.smul 2 d.options.window_padding))
          :: new := by
    simp only [show_popup, hg, hh]
    simp [List.drop_left]
  refine ⟨_, h1, h2, ?_⟩
  intro later
  simp [GraphicLayers.drain, h1, h2]

def cmdW : GuiCmd := GuiCmd.Window ⟨vec2 0 0, vec2 1 1⟩

def fW : Region → Data → Region × Data := fun rc dc => (rc, add_graphic dc cmdW)

/-- Claim C4, witness: a concrete popup whose content draws one command;
the base layer is restored and the overlay receives the window background
followed by that command. -/
theorem popup_layering_witness :
    ∃ rect : Rect,
      (show_popup d0 (vec2 50 50) fW).graphics.graphics = d0.graphics.graphics
      ∧ (show_popup d0 (vec2 50 50) fW).graphics.hovering_graphics
          = d0.graphics.hovering_graphics ++ GuiCmd.Window rect :: [cmdW]
      ∧ ∀ later : List GuiCmd,
          (GraphicLayers.drain
            ⟨(show_popup d0 (vec2 50 50) fW).graphics.graphics ++ later,
             (show_popup d0 (vec2 50 50) fW).graphics.hovering_graphics⟩).1
          = (d0.graphics.graphics ++ later)
            ++ (d0.graphics.hovering_graphics ++ GuiCmd.Window rect :: [cmdW]) :=
  popup_layering d0 (vec2 50 50) [cmdW] fW (fun _ _ => ⟨rfl, rfl⟩)

-- ----------------------------------------------------------------------------

lemma new_frame_input (d : Data) (inp : GuiInput) : (d.new_frame inp).input = inp :=
  rfl

lemma checkbox_flip (r : Region) (d : Data) (text : String) (b : Bool) :
    (r.checkbox d text b).2.2.1
      = (if (r.checkbox d text b).2.2.2.clicked then !b else b) :=
  rfl

lemma checkbox_no_click (r : Region) (d : Data) (text : String) (b : Bool)
    (h : d.input.mouse_clicked = false) :
    (r.checkbox d text b).2.2.1 = b := by
  simp [Region.checkbox, Region.reserve_space, h]

lemma checkbox_frames_no_click (r0 : Region) (text : String) :
    ∀ (inputs : List GuiInput) (d : Data) (b : Bool),
      (∀ i ∈ inputs, i.mouse_clicked = false) →
      (checkbox_frames r0 text d b inputs).1 = b := by
  intro inputs
  induction inputs with
  | nil => intro d b _; rfl
  | cons inp rest ih =>
      intro d b h
      have hstep : (r0.checkbox (d.new_frame inp) text b).2.2.1 = b :=
        checkbox_no_click r0 (d.new_frame inp) text b
          (h inp (List.mem_cons_self inp rest))
      simp only [checkbox_frames, hstep]
      exact ih _ b (fun i hi => h i (List.mem_cons_of_mem inp hi))

/-- Claim C7: a checkbox flips its bound boolean exactly once per
click-edge: each call negates the boolean exactly when its reservation
reports clicked, and a held mouse across subsequent frames (whose inputs
carry no mouse-just-clicked edge) leaves the boolean at its once-flipped
value, so the sequence starting with a clicked frame ends at the negation
of the initial value. -/
theorem checkbox_edge_trigger :
    (∀ (r : Region) (d : Data) (text : String) (b : Bool),
        (r.checkbox d text b).2.2.1
          = (if (r.checkbox d text b).2.2.2.clicked then !b else b))
    ∧ (∀ (r0 : Region) (d : Data) (text : String) (b : Bool)
        (inp : GuiInput) (rest : List GuiInput),
        (r0.checkbox (d.new_frame inp) text b).2.2.2.clicked = true →
        (∀ i ∈ rest, i.mouse_clicked = false) →
        (checkbox_frames r0 text d b (inp :: rest)).1 = !b) := by
  refine ⟨checkbox_flip, fun r0 d text b inp rest hclick hrest => ?_⟩
  have hflip : (r0.checkbox (d.new_frame inp) text b).2.2.1 = !b := by
    rw [checkbox_flip, hclick]
    simp
  simp only [checkbox_frames, hflip]
  exact checkbox_frames_no_click r0 text rest _ (!b) hrest

def inputHeld : GuiInput := ⟨vec2 1 1, true, false⟩

/-- Claim C7, witness: a concrete checkbox clicked on the first frame and
held (mouse down, no click edge) on the second flips false to true exactly
once. -/
theorem checkbox_edge_trigger_witness :
    ((region0.checkbox dClick "a" false).2.2.1
        = (if (region0.checkbox dClick "a" false).2.2.2.clicked then !false
           else false))
    ∧ (checkbox_frames region0 "a" d0 false [inputClick, inputHeld]).1 = !false :=
  ⟨checkbox_edge_trigger.1 region0 dClick "a" false,
   checkbox_edge_trigger.2 region0 d0 "a" false inputClick [inputHeld]
     (by norm_num +decide [Region.checkbox, Region.reserve_space, Rect.contains,
        Region.layout_text, splitLines, listLastD, d0, font0, region0,
        LayoutOptions.default, vec2, inputClick, Data.new_frame, input0])
     (by simp [inputHeld])⟩

-- ----------------------------------------------------------------------------

lemma remap_clamp_bounds (x a b lo hi : ℚ) (h : lo ≤ hi) :
    lo ≤ remap_clamp x a b lo hi ∧ remap_clamp x a b lo hi ≤ hi := by
  unfold remap_clamp
  split_ifs with h1 h2
  · exact ⟨le_refl lo, h⟩
  · exact ⟨h, le_refl hi⟩
  · have hax : a < x := lt_of_not_le h1
    have hxb : x < b := lt_of_not_le h2
    have hab : (0 : ℚ) < b - a := by linarith
    constructor
    · have hnn : 0 ≤ (x - a) * (hi - lo) / (b - a) :=
        div_nonneg (mul_nonneg (by linarith) (by linarith)) (le_of_lt hab)
      linarith
    · have key : (x - a) * (hi - lo) / (b - a) ≤ hi - lo := by
        rw [div_le_iff₀ hab]
        nlinarith
      linarith

/-- Claim C8: an active naked slider with min ≤ max (and a nonempty track)
sets the bound value to the linear remap of the mouse x-coordinate from the
reserved track's horizontal extent to the caller's value range, clamped to
that range: the value stays within [min,max], a mouse at or left of the
track's left edge yields min, and at or right of the right edge yields max. -/
theorem slider_remap_clamp (r : Region) (d : Data) (key : String)
    (value vmin vmax : ℚ) (hminmax : vmin ≤ vmax)
    (htrack : 0 < r.available_space.x)
    (hactive : (r.naked_slider_f32 d key value vmin vmax).2.2.2.active = true) :
    (r.naked_slider_f32 d key value vmin vmax).2.2.1
        = remap_clamp d.input.mouse_pos.x r.cursor.x
            (r.cursor.x + r.available_space.x) vmin vmax
    ∧ vmin ≤ (r.naked_slider_f32 d key value vmin vmax).2.2.1
    ∧ (r.naked_slider_f32 d key value vmin vmax).2.2.1 ≤ vmax
    ∧ (d.input.mouse_pos.x ≤ r.cursor.x →
        (r.naked_slider_f32 d key value vmin vmax).2.2.1 = vmin)
    ∧ (r.cursor.x + r.available_space.x ≤ d.input.mouse_pos.x →
        (r.naked_slider_f32 d key value vmin vmax).2.2.1 = vmax) := by
  have hact' : (r.reserve_space d (vec2 r.available_space.x d.font.line_spacing)
      (some (r.make_child_id key))).2.2.2.active = true := hactive
  have hval : (r.naked_slider_f32 d key value vmin vmax).2.2.1
      = remap_clamp d.input.mouse_pos.x r.cursor.x
          (r.cursor.x + r.available_space.x) vmin vmax := by
    simp only [Region.naked_slider_f32, hact']
    rfl
  refine ⟨hval, ?_, ?_, ?_, ?_⟩
  · rw [hval]
    exact (remap_clamp_bounds _ _ _ _ _ hminmax).1
  · rw [hval]
    exact (remap_clamp_bounds _ _ _ _ _ hminmax).2
  · intro hle
    rw [hval, remap_clamp, if_pos hle]
  · intro hge
    rw [hval]
    unfold remap_clamp
    have hnotle : ¬ d.input.mouse_pos.x ≤ r.cursor.x := by
      intro hcontra
      linarith
    rw [if_neg hnotle, if_pos hge]

def inputLeft : GuiInput := ⟨vec2 0 5, true, false⟩

def dSlider : Data :=
  { d0 with
    input := inputLeft
    memory := ⟨some (region0.make_child_id "s"), ∅⟩ }

/-- Claim C8, witness: a concrete already-active slider over [0,10] with the
mouse at the track's left edge yields the remapped-and-clamped value, which
is 0 = min. -/
theorem slider_remap_clamp_witness :
    (region0.naked_slider_f32 dSlider "s" 5 0 10).2.2.1
        = remap_clamp dSlider.input.mouse_pos.x region0.cursor.x
            (region0.cursor.x + region0.available_space.x) 0 10
    ∧ (0 : ℚ) ≤ (region0.naked_slider_f32 dSlider "s" 5 0 10).2.2.1
    ∧ (region0.naked_slider_f32 dSlider "s" 5 0 10).2.2.1 ≤ 10
    ∧ (dSlider.input.mouse_pos.x ≤ region0.cursor.x →
        (region0.naked_slider_f32 dSlider "s" 5 0 10).2.2.1 = 0)
    ∧ (region0.cursor.x + region0.available_space.x ≤ dSlider.input.mouse_pos.x →
        (region0.naked_slider_f32 dSlider "s" 5 0 10).2.2.1 = 10) :=
  slider_remap_clamp region0 dSlider "s" 5 0 10 (by norm_num)
    (by norm_num [region0, vec2])
    (by norm_num +decide [Region.naked_slider_f32, Region.reserve_space,
      Rect.contains, dSlider, d0, font0, region0, LayoutOptions.default, vec2,
      inputLeft])

/-- Claim C10: a naked slider whose reservation reports active = false
leaves the bound value unchanged, and still emits exactly one Slider draw
command to the base layer carrying the unchanged value. -/
theorem slider_inactive_no_write (r : Region) (d : Data) (key : String)
    (value vmin vmax : ℚ)
    (hinactive :
      (r.naked_slider_f32 d key value vmin vmax).2.2.2.active = false) :
    (r.naked_slider_f32 d key value vmin vmax).2.2.1 = value
    ∧ (r.naked_slider_f32 d key value vmin vmax).2.1.graphics.graphics
        = d.graphics.graphics
          ++ [GuiCmd.Slider (r.naked_slider_f32 d key value vmin vmax).2.2.2
                vmin vmax
                ⟨r.cursor, vec2 r.available_space.x d.font.line_spacing⟩ value] := by
  have hact' : (r.reserve_space d (vec2 r.available_space.x d.font.line_spacing)
      (some (r.make_child_id key))).2.2.2.active = false := hinactive
  constructor
  · simp only [Region.naked_slider_f32, hact']
    rfl
  · simp only [Region.naked_slider_f32, hact']
    rfl

/-- Claim C10, witness: a concrete inactive slider call (nothing active in
memory, mouse away) returns the bound value 5 unchanged and appends one
Slider command carrying 5. -/
theorem slider_inactive_no_write_witness :
    (region0.naked_slider_f32 d0 "s" 5 0 10).2.2.1 = 5
    ∧ (region0.naked_slider_f32 d0 "s" 5 0 10).2.1.graphics.graphics
        = d0.graphics.graphics
          ++ [GuiCmd.Slider (region0.naked_slider_f32 d0 "s" 5 0 10).2.2.2
                0 10
                ⟨region0.cursor,
                 vec2 region0.available_space.x d0.font.line_spacing⟩ 5] :=
  slider_inactive_no_write region0 d0 "s" 5 0 10
    (by norm_num +decide [Region.naked_slider_f32, Region.reserve_space,
      Rect.contains, d0, font0, region0, LayoutOptions.default, vec2, input0,
      mem0])

-- ----------------------------------------------------------------------------

@[simp]
lemma Vec2.add_def (a b : Vec2) : a + b = ⟨a.x + b.x, a.y + b.y⟩ := rfl

lemma add_graphic_graphics (d : Data) (cmd : GuiCmd) :
    (add_graphic d cmd).graphics.graphics = d.graphics.graphics ++ [cmd] := rfl

lemma add_graphic_memory (d : Data) (cmd : GuiCmd) :
    (add_graphic d cmd).memory = d.memory := rfl

/-- The base-layer commands emitted by add_text for a fragment list. -/
def fragCmds (pos : Vec2) (frags : List TextFragment) : List GuiCmd :=
  frags.map
    (fun fragment =>
      GuiCmd.Text (pos + vec2 0 fragment.y_offset) TextStyle.Label
        fragment.text fragment.x_offsets)

lemma add_text_graphics (pos : Vec2) (frags : List TextFragment) :
    ∀ d : Data, (Region.add_text d pos frags).graphics.graphics
      = d.graphics.graphics ++ fragCmds pos frags := by
  induction frags with
  | nil => intro d; simp [Region.add_text, fragCmds]
  | cons frag rest ih =>
      intro d
      simp only [Region.add_text, List.foldl_cons] at ih ⊢
      rw [ih]
      simp [fragCmds, add_graphic_graphics]

lemma add_text_memory (pos : Vec2) (frags : List TextFragment) :
    ∀ d : Data, (Region.add_text d pos frags).memory = d.memory := by
  induction frags with
  | nil => intro d; rfl
  | cons frag rest ih =>
      intro d
      simp only [Region.add_text, List.foldl_cons] at ih ⊢
      rw [ih]
      rfl

lemma fragCmds_no_window (pos : Vec2) (frags : List TextFragment) (rect : Rect) :
    GuiCmd.Window rect ∉ fragCmds pos frags := by
  intro h
  simp [fragCmds, List.mem_map] at h

lemma reserve_space_some_open_foldables (r : Region) (d : Data) (size : Vec2)
    (i : WidgetId) :
    (r.reserve_space d size (some i)).2.1.memory.open_foldables
      = d.memory.open_foldables := by
  simp only [Region.reserve_space]
  split <;> rfl

lemma reserve_space_some_graphics (r : Region) (d : Data) (size : Vec2)
    (i : WidgetId) :
    (r.reserve_space d size (some i)).2.1.graphics = d.graphics :=
  rfl

/-- Instrumented popup/foldable content: draws one Window command recording
the id and cursor of the region it is handed. -/
def probe_content : Region → Data → Region × Data :=
  fun rc dc => (rc, add_graphic dc (GuiCmd.Window ⟨rc.cursor, vec2 (rc.id : ℚ) 0⟩))

-- ----------------------------------------------------------------------------

lemma add_graphic_options (d : Data) (cmd : GuiCmd) :
    (add_graphic d cmd).options = d.options := rfl

lemma add_text_options (pos : Vec2) (frags : List TextFragment) :
    ∀ d : Data, (Region.add_text d pos frags).options = d.options := by
  induction frags with
  | nil => intro d; rfl
  | cons frag rest ih =>
      intro d
      simp only [Region.add_text, List.foldl_cons] at ih ⊢
      rw [ih]
      rfl

theorem foldable_toggle (r : Region) (d : Data) (text : String)
    (hdir : r.dir = Direction.Vertical)
    (hfresh : ∀ pos : Vec2,
      GuiCmd.Window ⟨pos, vec2 (r.make_child_id text : ℚ) 0⟩ ∉ d.graphics.graphics) :
    ∃ r' d' interact,
      r.foldable d text probe_content = some (r', d', interact)
      ∧ d'.memory.open_foldables
          = (if interact.clicked then
              (if r.make_child_id text ∈ d.memory.open_foldables then
                d.memory.open_foldables.erase (r.make_child_id text)
              else insert (r.make_child_id text) d.memory.open_foldables)
            else d.memory.open_foldables)
      ∧ ((∃ pos : Vec2,
            GuiCmd.Window ⟨pos, vec2 (r.make_child_id text : ℚ) 0⟩
              ∈ d'.graphics.graphics)
          ↔ r.make_child_id text ∈ d'.memory.open_foldables)
      ∧ (r.make_child_id text ∈ d'.memory.open_foldables →
          GuiCmd.Window
            ⟨⟨r.cursor.x + d.options.indent,
              r.cursor.y + ((Region.layout_text d text).2.y
                + 2 * d.options.button_padding.y + d.options.item_spacing.y)⟩,
             vec2 (r.make_child_id text : ℚ) 0⟩ ∈ d'.graphics.graphics) := by
  simp only [Region.foldable, hdir, eq_self_iff_true, if_true]
  have hopen := reserve_space_some_open_foldables r d
    (vec2 r.available_space.x
      ((Region.layout_text d text).2.y + 2 * d.options.button_padding.y))
    (r.make_child_id text)
  have hgr : (r.reserve_space d
      (vec2 r.available_space.x
        ((Region.layout_text d text).2.y + 2 * d.options.button_padding.y))
      (some (r.make_child_id text))).2.1.graphics = d.graphics := rfl
  have hopt : (r.reserve_space d
      (vec2 r.available_space.x
        ((Region.layout_text d text).2.y + 2 * d.options.button_padding.y))
      (some (r.make_child_id text))).2.1.options = d.options := rfl
  have hcur : (r.reserve_space d
      (vec2 r.available_space.x
        ((Region.layout_text d text).2.y + 2 * d.options.button_padding.y))
      (some (r.make_child_id text))).1.cursor
      = ⟨r.cursor.x, r.cursor.y + ((Region.layout_text d text).2.y
          + 2 * d.options.button_padding.y + d.options.item_spacing.y)⟩ := by
    simp [Region.reserve_space, Region.reserve_space_inner, hdir]
  generalize hres : r.reserve_space d
      (vec2 r.available_space.x
        ((Region.layout_text d text).2.y + 2 * d.options.button_padding.y))
      (some (r.make_child_id text)) = res
  rw [hres] at hopen hgr hopt hcur
  obtain ⟨r1, dmid, rect1, it1⟩ := res
  simp only at hopen hgr hopt hcur ⊢
  by_cases hc : it1.clicked = true
  · by_cases hm : r.make_child_id text ∈ d.memory.open_foldables
    · -- clicked while open: erased from the set, children not laid out
      simp only [hc, hopen, hm, if_true, Finset.not_mem_erase, decide_False,
        Bool.false_eq_true, if_false]
      refine ⟨_, _, _, rfl, ?_, ?_, ?_⟩
      · simp [add_text_memory, add_graphic_memory, hc, hm, hopen]
      · refine iff_of_false ?_ ?_
        · rintro ⟨pos, hp⟩
          simp [add_text_graphics, add_graphic_graphics, hgr, List.mem_append,
            hfresh, fragCmds_no_window] at hp
        · simp [add_text_memory, add_graphic_memory]
      · intro h
        exfalso
        simp [add_text_memory, add_graphic_memory] at h
    · -- clicked while closed: inserted into the set, children laid out
      simp only [hc, hopen, hm, if_true, if_false, Finset.mem_insert_self,
        decide_True]
      refine ⟨_, _, _, rfl, ?_, ?_, ?_⟩
      · simp [Region.indent, probe_content, add_graphic_memory,
          add_text_memory, hc, hm, hopen]
      · simp only [Region.indent, probe_content, add_graphic_graphics,
          add_graphic_options, add_graphic_memory, add_text_graphics,
          add_text_options, add_text_memory, hgr, hopt]
        refine iff_of_true
          ⟨_, List.mem_append_right _ (List.mem_singleton_self _)⟩ ?_
        simp
      · intro _
        simp only [Region.indent, probe_content, add_graphic_graphics,
          add_graphic_options, add_graphic_memory, add_text_graphics,
          add_text_options, add_text_memory, hgr, hopt]
        simp [hcur, List.mem_append]
  · by_cases hm : r.make_child_id text ∈ d.memory.open_foldables
    · -- not clicked, already open: children laid out, set unchanged
      rw [← hopen] at hm
      simp only [hc, hm, Bool.false_eq_true, if_false, decide_True, if_true,
        eq_self_iff_true]
      refine ⟨_, _, _, rfl, ?_, ?_, ?_⟩
      · simp [Region.indent, probe_content, add_graphic_memory,
          add_text_memory, hc, hopen]
      · simp only [Region.indent, probe_content, add_graphic_graphics,
          add_graphic_options, add_graphic_memory, add_text_graphics,
          add_text_options, add_text_memory, hgr, hopt]
        refine iff_of_true
          ⟨_, List.mem_append_right _ (List.mem_singleton_self _)⟩ ?_
        simp [hm]
      · intro _
        simp only [Region.indent, probe_content, add_graphic_graphics,
          add_graphic_options, add_graphic_memory, add_text_graphics,
          add_text_options, add_text_memory, hgr, hopt]
        simp [hcur, List.mem_append]
    · -- not clicked, closed: nothing drawn beyond header and text
      rw [← hopen] at hm
      simp only [hc, hm, Bool.false_eq_true, if_false, decide_False]
      refine ⟨_, _, _, rfl, ?_, ?_, ?_⟩
      · simp [add_text_memory, add_graphic_memory, hc, hopen]
      · refine iff_of_false ?_ ?_
        · rintro ⟨pos, hp⟩
          simp [add_text_graphics, add_graphic_graphics, hgr, List.mem_append,
            hfresh, fragCmds_no_window] at hp
        · simpa [add_text_memory, add_graphic_memory] using hm
      · intro h
        exfalso
        simp [add_text_memory, add_graphic_memory] at h
        exact hm h

/-- Claim C6, witness: a concrete foldable (Vertical region, empty memory,
empty graphics): its toggle equation, content-invocation iff open, and the
indented probe position, all instantiated. -/
theorem foldable_toggle_witness :
    ∃ r' d' interact,
      region0.foldable d0 "a" probe_content = some (r', d', interact)
      ∧ d'.memory.open_foldables
          = (if interact.clicked then
              (if region0.make_child_id "a" ∈ d0.memory.open_foldables then
                d0.memory.open_foldables.erase (region0.make_child_id "a")
              else insert (region0.make_child_id "a") d0.memory.open_foldables)
            else d0.memory.open_foldables)
      ∧ ((∃ pos : Vec2,
            GuiCmd.Window ⟨pos, vec2 (region0.make_child_id "a" : ℚ) 0⟩
              ∈ d'.graphics.graphics)
          ↔ region0.make_child_id "a" ∈ d'.memory.open_foldables)
      ∧ (region0.make_child_id "a" ∈ d'.memory.open_foldables →
          GuiCmd.Window
            ⟨⟨region0.cursor.x + d0.options.indent,
              region0.cursor.y + ((Region.layout_text d0 "a").2.y
                + 2 * d0.options.button_padding.y + d0.options.item_spacing.y)⟩,
             vec2 (region0.make_child_id "a" : ℚ) 0⟩ ∈ d'.graphics.graphics) :=
  foldable_toggle region0 d0 "a" rfl (fun pos => by simp [d0])
